
import Mathlib

/-!
Verification of the honk tile-map demo (src/honk.py).

The embedding models the parts of the program the claims are about:

* Python dicts as association lists (`dlookup`, `dinsert`) that preserve
  insertion order and replace in place, matching CPython dict semantics.
* Tile-layer data (`layer.data`, a list of rows of gids) as
  `List (List Nat)` with `getCell`/`setCell`; cells are addressed as
  `data[y][x]` exactly as the source does.
* The application state of `SimpleTest` (layers, tile properties,
  `self.selection`, `self.running`, `self.exit_status`) as `AppState`.
* The event loop of `SimpleTest.run` as `processEvent` / `processEvents` /
  `runLoop`; fallible Python code (KeyError / TypeError on missing tile
  properties, missing layers) is modelled with `Option`.
* `TiledRenderer.build_character_index` and
  `TiledRenderer.build_spawn_index` as functions over the
  `tile_properties` association list.
-/

namespace Honk

/-- Python dict lookup: first (and only) binding of the key. -/
def dlookup {α β : Type} [DecidableEq α] : List (α × β) → α → Option β
  | [], _ => none
  | (k, v) :: rest, k' => if k = k' then some v else dlookup rest k'

/-- Python dict assignment `d[k] = v`: replace in place, else append. -/
def dinsert {α β : Type} [DecidableEq α] : List (α × β) → α → β → List (α × β)
  | [], k, v => [(k, v)]
  | (k', v') :: rest, k, v =>
    if k' = k then (k, v) :: rest else (k', v') :: dinsert rest k v

/-- Cell read `data[y][x]`; out-of-range reads return 0 (the claims only
concern in-range clicks, and the bounds hypotheses are stated explicitly
where a theorem needs them). -/
def getCell (g : List (List Nat)) (y x : Nat) : Nat := (g.getD y []).getD x 0

/-- Cell write `data[y][x] = v`. -/
def setCell (g : List (List Nat)) (y x v : Nat) : List (List Nat) :=
  g.set y ((g.getD y []).set x v)

/-- Tile properties: string-keyed property maps, as parsed by pytmx into
`tmx_data.tile_properties` (gid to property dict). -/
abbrev Props := List (String × String)

/-- State of a `SimpleTest` instance: the named tile layers of
`tmx_data.layers`, the gid property table `tmx_data.tile_properties`, and
the fields `self.selection` (an (x, y, gid) triple or `None`),
`self.running` and `self.exit_status`. -/
structure AppState where
  layers : List (String × List (List Nat))
  tileProps : List (Nat × Props)
  selection : Option (Nat × Nat × Nat)
  running : Bool
  exitStatus : Nat
deriving DecidableEq

/-- `get_tile_properties_by_gid(gid)["terrain"]`: `none` models the
Python error raised when the gid has no property dict (subscripting
`None`) or the dict lacks the "terrain" key (KeyError). -/
def getTerrain (st : AppState) (gid : Nat) : Option String :=
  match dlookup st.tileProps gid with
  | none => none
  | some props => dlookup props "terrain"

/-- The terrain consulted by a click at tile (x, y): the "terrain"
property of the World Layer tile under the click. -/
def clickTerrain (st : AppState) (x y : Nat) : Option String :=
  match dlookup st.layers "World Layer" with
  | none => none
  | some world => getTerrain st (getCell world y x)

/-- The MOUSEBUTTONUP branch of `SimpleTest.run` (src/honk.py lines
207-227), with (x, y) the tile coordinates computed from the mouse
position. The Sprite Layer, the World Layer tile under the click and its
"terrain" property are all fetched before any branch; a failed lookup is
the raised Python exception, modelled as `none`. -/
def clickAt (st : AppState) (x y : Nat) : Option AppState :=
  match dlookup st.layers "Sprite Layer" with
  | none => none
  | some sprite =>
    match dlookup st.layers "World Layer" with
    | none => none
    | some world =>
      match getTerrain st (getCell world y x) with
      | none => none
      | some terrain =>
        match st.selection with
        | some (sx, sy, g) =>
          if getCell sprite y x ≠ 0 then some st
          else if terrain = "water" then some st
          else if terrain = "mountains" then some st
          else some { st with
            layers := dinsert st.layers "Sprite Layer"
              (setCell (setCell sprite y x g) sy sx 0),
            selection := none }
        | none =>
          if getCell sprite y x ≠ 0 then
            some { st with selection := some (x, y, getCell sprite y x) }
          else some st

/-- pygame's `K_ESCAPE` key constant. -/
def K_ESCAPE : Nat := 27

/-- The pygame events `SimpleTest.run` dispatches on; `other` stands for
any event type matching none of the four `elif` branches, and a
`mouseup` carries the tile coordinates derived from the mouse position. -/
inductive Event where
  | quit : Event
  | keydown : Nat → Event
  | videoresize : Event
  | mouseup : Nat → Nat → Event
  | other : Event
deriving DecidableEq

/-- One event dispatch of the `for event in pygame.event.get()` body. -/
def processEvent (st : AppState) (e : Event) : Option AppState :=
  match e with
  | .quit => some { st with exitStatus := 0, running := false }
  | .keydown k =>
    if k = K_ESCAPE then some { st with exitStatus := 0, running := false }
    else some st
  | .videoresize => some st
  | .mouseup x y => clickAt st x y
  | .other => some st

/-- One full pass over an event batch: the `for` loop runs every event of
the batch even after `self.running` has been set to False. -/
def processEvents : AppState → List Event → Option AppState
  | st, [] => some st
  | st, e :: rest =>
    match processEvent st e with
    | none => none
    | some st' => processEvents st' rest

/-- Entry of `run()`: `self.running = True; self.exit_status = 1`. -/
def runStart (st : AppState) : AppState :=
  { st with running := true, exitStatus := 1 }

/-- The `while self.running` loop over successive event batches; `none`
when the batch list runs out while still running (the loop has not
stopped) or an event raised. -/
def runLoop : AppState → List (List Event) → Option Nat
  | _, [] => none
  | st, evs :: rest =>
    match processEvents st evs with
    | none => none
    | some st' =>
      if st'.running then runLoop st' rest else some st'.exitStatus

/-- `SimpleTest.run` as a function of the event batches the loop sees. -/
def run (st : AppState) (batches : List (List Event)) : Option Nat :=
  runLoop (runStart st) batches

/-- An event that stops the loop: QUIT, or KEYDOWN with the ESC key. -/
def isQuitEvent : Event → Bool
  | .quit => true
  | .keydown k => k = K_ESCAPE
  | _ => false

/-- The nested dict built by `build_character_index`:
team, then character name, then mode, to gid. -/
abbrev CharIndex := List (String × List (String × List (String × Nat)))

/-- One iteration of the `build_character_index` loop body (src/honk.py
lines 89-102), translated literally: the second guard tests
`team not in characters[team]` — the word `team`, not `name` — exactly as
the source does, and `characters[team][name][mode] = gid` raises KeyError
(modelled as `none`) when `name` was not initialised. -/
def charStep (characters : CharIndex) (gid : Nat) (props : Props) :
    Option CharIndex :=
  match dlookup props "team", dlookup props "character",
        dlookup props "mode" with
  | some team, some name, some mode =>
    let c1 := if (dlookup characters team).isSome then characters
              else dinsert characters team []
    let inner0 := (dlookup c1 team).getD []
    let inner1 := if (dlookup inner0 team).isSome then inner0
                  else dinsert inner0 name []
    match dlookup inner1 name with
    | none => none
    | some modes =>
      some (dinsert c1 team (dinsert inner1 name (dinsert modes mode gid)))
  | _, _, _ => some characters

/-- `TiledRenderer.build_character_index` over the `tile_properties`
items (src/honk.py lines 87-103). -/
def build_character_index (tp : List (Nat × Props)) : Option CharIndex :=
  tp.foldlM (fun c gp => charStep c gp.1 gp.2) []

/-- One iteration of the `build_spawn_index` loop body:
`spawns[props["spawn"]] = gid` when the "spawn" key is present. -/
def spawnStep (spawns : List (String × Nat)) (gp : Nat × Props) :
    List (String × Nat) :=
  match dlookup gp.2 "spawn" with
  | none => spawns
  | some s => dinsert spawns s gp.1

/-- `TiledRenderer.build_spawn_index` over the `tile_properties` items
(src/honk.py lines 105-111). -/
def build_spawn_index (tp : List (Nat × Props)) : List (String × Nat) :=
  tp.foldl spawnStep []

/-- `characters[team][name][mode]` on the built character index. -/
def charLookup (c : CharIndex) (team name mode : String) : Option Nat :=
  match dlookup c team with
  | none => none
  | some inner =>
    match dlookup inner name with
    | none => none
    | some modes => dlookup modes mode

/-- A concrete property table: gids 10-13 are World Layer terrains. -/
def exProps : List (Nat × Props) :=
  [(10, [("terrain", "grass")]), (11, [("terrain", "grass")]),
   (12, [("terrain", "water")]), (13, [("terrain", "mountains")])]

/-- A concrete 2x2 World Layer. -/
def exWorld : List (List Nat) := [[10, 11], [12, 13]]

/-- A concrete 2x2 Sprite Layer with one character at (x, y) = (0, 0). -/
def exSprite : List (List Nat) := [[5, 0], [0, 0]]

/-- A concrete state with the tile at (0, 0) selected. -/
def exStSel : AppState :=
  ⟨[("World Layer", exWorld), ("Sprite Layer", exSprite)], exProps,
   some (0, 0, 5), true, 1⟩

/-- The same concrete state with no selection. -/
def exStNone : AppState := { exStSel with selection := none }

/-- A state with a selection and a second character at (x, y) = (1, 0),
so that a click at (1, 0) hits an occupied tile. -/
def exStOcc : AppState :=
  { exStSel with
    layers := [("World Layer", exWorld), ("Sprite Layer", [[5, 7], [0, 0]])] }

/-- A state whose World Layer tile 10 has a property dict without the
"terrain" key, and no selection. -/
def exStBad : AppState := { exStNone with tileProps := [(10, [("spawn", "x")])] }

/-- Two tiles of one character ("red" "dude") in two modes. -/
def exCharTP : List (Nat × Props) :=
  [(1, [("team", "red"), ("character", "dude"), ("mode", "idle")]),
   (2, [("team", "red"), ("character", "dude"), ("mode", "walk")])]

/-- A one-entry property table with a "spawn" tile. -/
def exSpawnTP : List (Nat × Props) := [(5, [("spawn", "blue")])]

theorem dlookup_dinsert_eq {α β : Type} [DecidableEq α]
    (l : List (α × β)) (k : α) (v : β) : dlookup (dinsert l k v) k = some v := by
  induction l with
  | nil => simp [dinsert, dlookup]
  | cons p rest ih =>
    by_cases h : p.1 = k
    · simp [dinsert, dlookup, h]
    · simp [dinsert, dlookup, h, ih]

theorem dlookup_dinsert_ne {α β : Type} [DecidableEq α]
    (l : List (α × β)) (k k' : α) (v : β) (h : k ≠ k') :
    dlookup (dinsert l k v) k' = dlookup l k' := by
  induction l with
  | nil => simp [dinsert, dlookup, h]
  | cons p rest ih =>
    by_cases hp : p.1 = k
    · simp [dinsert, dlookup, hp, h]
    · simp [dinsert, dlookup, hp, ih]

theorem listGetD_set_ne {α : Type} (a d : α) :
    ∀ (l : List α) (i j : Nat), i ≠ j → (l.set i a).getD j d = l.getD j d
  | [], _, _, _ => rfl
  | _ :: _, 0, 0, h => absurd rfl h
  | _ :: _, 0, _ + 1, _ => rfl
  | _ :: _, _ + 1, 0, _ => rfl
  | _ :: xs, i + 1, j + 1, h =>
    listGetD_set_ne a d xs i j (fun e => h (by rw [e]))

theorem listGetD_set_eq {α : Type} (a d : α) :
    ∀ (l : List α) (i : Nat), i < l.length → (l.set i a).getD i d = a
  | [], i, h => absurd h (by simp)
  | _ :: _, 0, _ => rfl
  | _ :: xs, i + 1, h =>
    listGetD_set_eq a d xs i (Nat.lt_of_succ_lt_succ h)

theorem listGetD_of_le {α : Type} (d : α) :
    ∀ (l : List α) (i : Nat), l.length ≤ i → l.getD i d = d
  | [], _, _ => rfl
  | _ :: _, 0, h => absurd h (by simp)
  | _ :: xs, i + 1, h => listGetD_of_le d xs i (Nat.le_of_succ_le_succ h)

theorem listSet_of_le {α : Type} (a : α) :
    ∀ (l : List α) (i : Nat), l.length ≤ i → l.set i a = l
  | [], _, _ => rfl
  | _ :: _, 0, h => absurd h (by simp)
  | x :: xs, i + 1, h => by
    simp only [List.set]
    rw [listSet_of_le a xs i (Nat.le_of_succ_le_succ h)]

/-- The row at the written index of `setCell`, with no bounds hypothesis:
an out-of-range write leaves the grid unchanged and the defaulted row
empty on both sides. -/
theorem row_setCell (g : List (List Nat)) (y x v : Nat) :
    (setCell g y x v).getD y [] = (g.getD y []).set x v := by
  by_cases h : y < g.length
  · exact listGetD_set_eq _ _ g y h
  · have hle : g.length ≤ y := Nat.le_of_not_lt h
    rw [setCell, listSet_of_le _ g y hle, listGetD_of_le _ g y hle]
    rfl

theorem row_setCell_ne (g : List (List Nat)) (y x v r : Nat) (h : y ≠ r) :
    (setCell g y x v).getD r [] = g.getD r [] :=
  listGetD_set_ne _ _ g y r h

theorem setCell_length (g : List (List Nat)) (y x v : Nat) :
    (setCell g y x v).length = g.length := List.length_set ..

theorem row_setCell_length (g : List (List Nat)) (y x v r : Nat) :
    ((setCell g y x v).getD r []).length = (g.getD r []).length := by
  by_cases h : y = r
  · subst h; rw [row_setCell]; exact List.length_set ..
  · rw [row_setCell_ne g y x v r h]

theorem getCell_setCell_eq (g : List (List Nat)) (y x v : Nat)
    (hx : x < (g.getD y []).length) :
    getCell (setCell g y x v) y x = v := by
  rw [getCell, row_setCell]
  exact listGetD_set_eq _ _ _ x hx

theorem getCell_setCell_ne (g : List (List Nat)) (y x v r c : Nat)
    (h : ¬(y = r ∧ x = c)) :
    getCell (setCell g y x v) r c = getCell g r c := by
  by_cases hy : y = r
  · subst hy
    have hx : x ≠ c := fun e => h ⟨rfl, e⟩
    rw [getCell, row_setCell, getCell]
    exact listGetD_set_ne _ _ _ x c hx
  · rw [getCell, row_setCell_ne g y x v r hy, getCell]

/-- A nonzero cell read is necessarily in range, since out-of-range reads
default to 0. -/
theorem getCell_ne_zero_bounds (g : List (List Nat)) (y x : Nat)
    (h : getCell g y x ≠ 0) : y < g.length ∧ x < (g.getD y []).length := by
  constructor
  · by_contra hy
    exact h (by rw [getCell, listGetD_of_le _ g y (Nat.le_of_not_lt hy)]; rfl)
  · by_contra hx
    exact h (by rw [getCell, listGetD_of_le _ _ x (Nat.le_of_not_lt hx)])

/-- On a click at (x, y) with a selection, an empty destination cell and
a terrain that is neither water nor mountains, the handler takes the move
branch of src/honk.py lines 221-224. -/
theorem clickAt_move (st : AppState) (x y sx sy g : Nat)
    (sprite world : List (List Nat)) (t : String)
    (hsel : st.selection = some (sx, sy, g))
    (hs : dlookup st.layers "Sprite Layer" = some sprite)
    (hw : dlookup st.layers "World Layer" = some world)
    (ht : getTerrain st (getCell world y x) = some t)
    (ht1 : t ≠ "water") (ht2 : t ≠ "mountains")
    (hempty : getCell sprite y x = 0) :
    clickAt st x y = some { st with
      layers := dinsert st.layers "Sprite Layer"
        (setCell (setCell sprite y x g) sy sx 0),
      selection := none } := by
  simp only [clickAt, hs, hw, ht, hsel]
  simp [hempty, ht1, ht2]

/-- C1: while (sx, sy, g) is selected — so, in any reachable state, the
Sprite Layer holds the nonzero gid g at (sy, sx) — a click at an
in-range tile (x, y) whose Sprite Layer cell is 0 and whose World Layer
terrain is neither "water" nor "mountains" stores g at Sprite Layer
(y, x), zeroes Sprite Layer (sy, sx), and empties the selection. -/
theorem click_moves_selected_sprite (st st' : AppState) (x y sx sy g : Nat)
    (sprite world : List (List Nat)) (t : String)
    (hsel : st.selection = some (sx, sy, g))
    (hs : dlookup st.layers "Sprite Layer" = some sprite)
    (hw : dlookup st.layers "World Layer" = some world)
    (ht : getTerrain st (getCell world y x) = some t)
    (ht1 : t ≠ "water") (ht2 : t ≠ "mountains")
    (hempty : getCell sprite y x = 0)
    (hsrc : getCell sprite sy sx = g) (hg : g ≠ 0)
    (hx : x < (sprite.getD y []).length)
    (h : clickAt st x y = some st') :
    ∃ sprite2, dlookup st'.layers "Sprite Layer" = some sprite2 ∧
      getCell sprite2 y x = g ∧ getCell sprite2 sy sx = 0 ∧
      st'.selection = none := by
  have hmove := clickAt_move st x y sx sy g sprite world t hsel hs hw ht
    ht1 ht2 hempty
  rw [h] at hmove
  have hst : st' = { st with
      layers := dinsert st.layers "Sprite Layer"
        (setCell (setCell sprite y x g) sy sx 0),
      selection := none } := Option.some.inj hmove
  subst hst
  refine ⟨setCell (setCell sprite y x g) sy sx 0,
    dlookup_dinsert_eq _ _ _, ?_, ?_, rfl⟩
  · have hne : ¬(sy = y ∧ sx = x) := by
      rintro ⟨rfl, rfl⟩
      rw [hempty] at hsrc
      exact hg hsrc.symm
    rw [getCell_setCell_ne _ sy sx 0 y x hne,
        getCell_setCell_eq sprite y x g hx]
  · have hb := getCell_ne_zero_bounds sprite sy sx (by rw [hsrc]; exact hg)
    have hx2 : sx < ((setCell sprite y x g).getD sy []).length := by
      rw [row_setCell_length]; exact hb.2
    exact getCell_setCell_eq _ sy sx 0 hx2

/-- Witness for C1 at a concrete state: moving the selected sprite from
(0, 0) to the empty grass tile (1, 0). -/
theorem click_moves_selected_sprite_app :
    ∃ sprite2,
      dlookup ({ exStSel with
        layers := dinsert exStSel.layers "Sprite Layer"
          (setCell (setCell exSprite 0 1 5) 0 0 0),
        selection := none } : AppState).layers "Sprite Layer" = some sprite2 ∧
      getCell sprite2 0 1 = 5 ∧ getCell sprite2 0 0 = 0 ∧
      ({ exStSel with
        layers := dinsert exStSel.layers "Sprite Layer"
          (setCell (setCell exSprite 0 1 5) 0 0 0),
        selection := none } : AppState).selection = none :=
  click_moves_selected_sprite exStSel _ 1 0 0 0 5 exSprite exWorld "grass"
    rfl rfl rfl rfl (by decide) (by decide) rfl rfl (by decide) (by decide) rfl

/-- C9: every click first fetches the "terrain" property of the World
Layer tile under the click; when the tile has no property dict or its
dict lacks "terrain", the handler raises (result `none`) before any
branch runs — whatever the selection and Sprite Layer contents are. -/
theorem click_requires_terrain (st : AppState) (x y : Nat)
    (sprite world : List (List Nat))
    (hs : dlookup st.layers "Sprite Layer" = some sprite)
    (hw : dlookup st.layers "World Layer" = some world)
    (ht : getTerrain st (getCell world y x) = none) :
    clickAt st x y = none := by
  simp only [clickAt, hs, hw, ht]

/-- Witness for C9: a plain selection click (no selection held, occupied
cell at (0, 0)) still errors because tile 10 lacks "terrain". -/
theorem click_requires_terrain_app : clickAt exStBad 0 0 = none :=
  click_requires_terrain exStBad 0 0 exSprite exWorld rfl rfl rfl

/-- C10: a successful move modifies exactly the destination and source
cells of the Sprite Layer — destination set to the moved gid, source set
to 0 — and leaves every other Sprite Layer cell and every other named
layer untouched. -/
theorem click_move_frame_effect (st st' : AppState) (x y sx sy g : Nat)
    (sprite world : List (List Nat)) (t : String)
    (hsel : st.selection = some (sx, sy, g))
    (hs : dlookup st.layers "Sprite Layer" = some sprite)
    (hw : dlookup st.layers "World Layer" = some world)
    (ht : getTerrain st (getCell world y x) = some t)
    (ht1 : t ≠ "water") (ht2 : t ≠ "mountains")
    (hempty : getCell sprite y x = 0)
    (hsrc : getCell sprite sy sx = g) (hg : g ≠ 0)
    (hx : x < (sprite.getD y []).length)
    (h : clickAt st x y = some st') :
    ∃ sprite2, dlookup st'.layers "Sprite Layer" = some sprite2 ∧
      getCell sprite2 y x = g ∧ getCell sprite2 sy sx = 0 ∧
      (∀ r c, ¬(r = y ∧ c = x) → ¬(r = sy ∧ c = sx) →
        getCell sprite2 r c = getCell sprite r c) ∧
      (∀ n, n ≠ "Sprite Layer" → dlookup st'.layers n = dlookup st.layers n) := by
  have hmove := clickAt_move st x y sx sy g sprite world t hsel hs hw ht
    ht1 ht2 hempty
  rw [h] at hmove
  have hst : st' = { st with
      layers := dinsert st.layers "Sprite Layer"
        (setCell (setCell sprite y x g) sy sx 0),
      selection := none } := Option.some.inj hmove
  subst hst
  refine ⟨setCell (setCell sprite y x g) sy sx 0,
    dlookup_dinsert_eq _ _ _, ?_, ?_, ?_, ?_⟩
  · have hne : ¬(sy = y ∧ sx = x) := by
      rintro ⟨rfl, rfl⟩
      rw [hempty] at hsrc
      exact hg hsrc.symm
    rw [getCell_setCell_ne _ sy sx 0 y x hne,
        getCell_setCell_eq sprite y x g hx]
  · have hb := getCell_ne_zero_bounds sprite sy sx (by rw [hsrc]; exact hg)
    have hx2 : sx < ((setCell sprite y x g).getD sy []).length := by
      rw [row_setCell_length]; exact hb.2
    exact getCell_setCell_eq _ sy sx 0 hx2
  · intro r c h1 h2
    rw [getCell_setCell_ne _ sy sx 0 r c (fun e => h2 ⟨e.1.symm, e.2.symm⟩),
        getCell_setCell_ne _ y x g r c (fun e => h1 ⟨e.1.symm, e.2.symm⟩)]
  · intro n hn
    exact dlookup_dinsert_ne st.layers "Sprite Layer" n _ (fun e => hn e.symm)

/-- Witness for C10 at the same concrete move as the C1 witness. -/
theorem click_move_frame_effect_app :
    ∃ sprite2,
      dlookup ({ exStSel with
        layers := dinsert exStSel.layers "Sprite Layer"
          (setCell (setCell exSprite 0 1 5) 0 0 0),
        selection := none } : AppState).layers "Sprite Layer" = some sprite2 ∧
      getCell sprite2 0 1 = 5 ∧ getCell sprite2 0 0 = 0 ∧
      (∀ r c, ¬(r = 0 ∧ c = 1) → ¬(r = 0 ∧ c = 0) →
        getCell sprite2 r c = getCell exSprite r c) ∧
      (∀ n, n ≠ "Sprite Layer" →
        dlookup ({ exStSel with
          layers := dinsert exStSel.layers "Sprite Layer"
            (setCell (setCell exSprite 0 1 5) 0 0 0),
          selection := none } : AppState).layers n =
        dlookup exStSel.layers n) :=
  click_move_frame_effect exStSel _ 1 0 0 0 5 exSprite exWorld "grass"
    rfl rfl rfl rfl (by decide) (by decide) rfl rfl (by decide) (by decide) rfl

/-- C2: a click while a selection is held whose move is blocked — the
destination Sprite Layer cell is nonzero, or the destination terrain is
"water" or "mountains" — leaves all layer data and the selection exactly
as they were. -/
theorem blocked_click_changes_nothing (st st' : AppState) (x y : Nat)
    (hsel : st.selection.isSome = true)
    (hblocked :
      (∃ sprite, dlookup st.layers "Sprite Layer" = some sprite ∧
        getCell sprite y x ≠ 0) ∨
      clickTerrain st x y = some "water" ∨
      clickTerrain st x y = some "mountains")
    (h : clickAt st x y = some st') :
    st'.layers = st.layers ∧ st'.selection = st.selection := by
  rcases hs : dlookup st.layers "Sprite Layer" with _ | sprite
  · rw [clickAt, hs] at h; exact absurd h (by simp)
  rcases hw : dlookup st.layers "World Layer" with _ | world
  · simp only [clickAt, hs, hw] at h
    exact Option.noConfusion h
  rcases ht : getTerrain st (getCell world y x) with _ | t
  · simp only [clickAt, hs, hw, ht] at h
    exact Option.noConfusion h
  rcases hv : st.selection with _ | s
  · rw [hv] at hsel; simp at hsel
  obtain ⟨sx, sy, g⟩ := s
  simp only [clickAt, hs, hw, ht, hv] at h
  by_cases h0 : getCell sprite y x ≠ 0
  · rw [if_pos h0] at h
    have he : st = st' := Option.some.inj h
    subst he
    exact ⟨rfl, hv⟩
  · rw [if_neg h0] at h
    have hterr : t = "water" ∨ t = "mountains" := by
      rcases hblocked with ⟨sp, hsp, hne⟩ | hwat | hmnt
      · rw [hs] at hsp
        exact absurd (Option.some.inj hsp ▸ hne) h0
      · simp only [clickTerrain, hw, ht, Option.some.injEq] at hwat
        exact Or.inl hwat
      · simp only [clickTerrain, hw, ht, Option.some.injEq] at hmnt
        exact Or.inr hmnt
    rcases hterr with rfl | rfl
    · rw [if_pos rfl] at h
      have he : st = st' := Option.some.inj h
      subst he
      exact ⟨rfl, hv⟩
    · rw [if_neg (by decide), if_pos rfl] at h
      have he : st = st' := Option.some.inj h
      subst he
      exact ⟨rfl, hv⟩

/-- Witness for C2: with (0, 0, 5) selected, clicking the water tile at
(x, y) = (0, 1) changes neither the layers nor the selection. -/
theorem blocked_click_changes_nothing_app :
    exStSel.layers = exStSel.layers ∧ exStSel.selection = exStSel.selection :=
  blocked_click_changes_nothing exStSel exStSel 0 1 rfl
    (Or.inr (Or.inl rfl)) rfl

/-- Counterexample to C3 as stated: in `exStOcc` the tile (0, 0, 5) is
selected and the Sprite Layer cell at (x, y) = (1, 0) holds 7 ≠ 0, yet
clicking (1, 0) leaves the old selection (0, 0, 5) in place instead of
selecting (1, 0, 7): the handler prints "Something already here." and
changes nothing. -/
theorem click_occupied_keeps_old_selection :
    getCell [[5, 7], [0, 0]] 0 1 = 7 ∧
    clickAt exStOcc 1 0 = some exStOcc ∧
    exStOcc.selection ≠ some (1, 0, 7) := by
  refine ⟨rfl, rfl, ?_⟩
  intro h
  simp [exStOcc, exStSel] at h

/-- C3 amended: clicking a tile whose Sprite Layer cell is nonzero
selects that tile only when no selection is held; when a selection is
already held, such a click leaves the whole state unchanged. -/
theorem occupied_click_selects_iff_no_selection (st st' : AppState)
    (x y : Nat) (sprite : List (List Nat))
    (hs : dlookup st.layers "Sprite Layer" = some sprite)
    (hocc : getCell sprite y x ≠ 0)
    (h : clickAt st x y = some st') :
    (st.selection = none →
      st'.selection = some (x, y, getCell sprite y x)) ∧
    (st.selection.isSome = true → st' = st) := by
  rcases hw : dlookup st.layers "World Layer" with _ | world
  · simp only [clickAt, hs, hw] at h
    exact Option.noConfusion h
  rcases ht : getTerrain st (getCell world y x) with _ | t
  · simp only [clickAt, hs, hw, ht] at h
    exact Option.noConfusion h
  rcases hv : st.selection with _ | s
  · simp only [clickAt, hs, hw, ht, hv] at h
    rw [if_pos hocc] at h
    have he := Option.some.inj h
    constructor
    · intro _
      rw [← he]
    · intro hsome
      simp at hsome
  · obtain ⟨sx, sy, g⟩ := s
    simp only [clickAt, hs, hw, ht, hv] at h
    rw [if_pos hocc] at h
    exact ⟨fun hnone => Option.noConfusion hnone,
      fun _ => (Option.some.inj h).symm⟩

/-- Witness for the amended C3: with no selection held, clicking the
occupied tile (0, 0) of `exStNone` selects (0, 0, 5). -/
theorem occupied_click_selects_iff_no_selection_app :
    (exStNone.selection = none →
      ({ exStNone with selection := some (0, 0, getCell exSprite 0 0) }
        : AppState).selection = some (0, 0, getCell exSprite 0 0)) ∧
    (exStNone.selection.isSome = true →
      ({ exStNone with selection := some (0, 0, getCell exSprite 0 0) }
        : AppState) = exStNone) :=
  occupied_click_selects_iff_no_selection exStNone _ 0 0 exSprite rfl
    (by decide) rfl

/-- C4: the selection is always either empty or exactly one
(x, y, gid) triple — `self.selection` only ever holds `None` (lines 135
and 224 of src/honk.py) or one 3-tuple (line 227), which the model
renders as `Option (Nat × Nat × Nat)`, so every processed event yields a
state whose selection is `none` or a single triple. -/
theorem selection_none_or_single_triple (st : AppState) (e : Event)
    (st' : AppState) (_h : processEvent st e = some st') :
    st'.selection = none ∨ ∃ x y g, st'.selection = some (x, y, g) := by
  rcases hv : st'.selection with _ | s
  · exact Or.inl rfl
  · obtain ⟨a, b, c⟩ := s
    exact Or.inr ⟨a, b, c, rfl⟩

/-- Witness for C4 at a concrete event: the QUIT event on `exStNone`. -/
theorem selection_none_or_single_triple_app :
    ({ exStNone with exitStatus := 0, running := false } : AppState).selection
        = none ∨
    ∃ x y g, ({ exStNone with exitStatus := 0, running := false }
        : AppState).selection = some (x, y, g) :=
  selection_none_or_single_triple exStNone .quit _ rfl

/-- C8: a nonempty selection always carries a nonzero gid: the only
assignment of a tuple to `self.selection` (line 227) copies a Sprite
Layer cell that was just checked to be nonzero, and every other event
either keeps or empties the selection. -/
theorem selection_gid_nonzero (st : AppState) (e : Event) (st' : AppState)
    (hinv : ∀ x y g, st.selection = some (x, y, g) → g ≠ 0)
    (h : processEvent st e = some st') :
    ∀ x y g, st'.selection = some (x, y, g) → g ≠ 0 := by
  cases e with
  | quit =>
    have he := Option.some.inj h
    intro x y g hsel
    rw [← he] at hsel
    exact hinv x y g hsel
  | keydown k =>
    rw [processEvent] at h
    by_cases hk : k = K_ESCAPE
    · rw [if_pos hk] at h
      have he := Option.some.inj h
      intro x y g hsel
      rw [← he] at hsel
      exact hinv x y g hsel
    · rw [if_neg hk] at h
      have he := Option.some.inj h
      rw [← he]
      exact hinv
  | videoresize =>
    have he := Option.some.inj h
    rw [← he]
    exact hinv
  | other =>
    have he := Option.some.inj h
    rw [← he]
    exact hinv
  | mouseup x y =>
    rw [processEvent] at h
    rcases hs : dlookup st.layers "Sprite Layer" with _ | sprite
    · rw [clickAt, hs] at h
      exact Option.noConfusion h
    rcases hw : dlookup st.layers "World Layer" with _ | world
    · simp only [clickAt, hs, hw] at h
      exact Option.noConfusion h
    rcases ht : getTerrain st (getCell world y x) with _ | t
    · simp only [clickAt, hs, hw, ht] at h
      exact Option.noConfusion h
    rcases hv : st.selection with _ | s
    · simp only [clickAt, hs, hw, ht, hv] at h
      by_cases h0 : getCell sprite y x ≠ 0
      · rw [if_pos h0] at h
        have he := Option.some.inj h
        intro x' y' g' hsel
        rw [← he] at hsel
        simp only at hsel
        have hg : getCell sprite y x = g' :=
          congrArg (fun p => p.2.2) (Option.some.inj hsel)
        exact hg ▸ h0
      · rw [if_neg h0] at h
        have he := Option.some.inj h
        rw [← he]
        exact hinv
    · obtain ⟨sx, sy, g0⟩ := s
      simp only [clickAt, hs, hw, ht, hv] at h
      by_cases h0 : getCell sprite y x ≠ 0
      · rw [if_pos h0] at h
        have he := Option.some.inj h
        rw [← he]
        exact hinv
      · rw [if_neg h0] at h
        by_cases hw1 : t = "water"
        · rw [if_pos hw1] at h
          have he := Option.some.inj h
          rw [← he]
          exact hinv
        · rw [if_neg hw1] at h
          by_cases hw2 : t = "mountains"
          · rw [if_pos hw2] at h
            have he := Option.some.inj h
            rw [← he]
            exact hinv
          · rw [if_neg hw2] at h
            have he := Option.some.inj h
            intro x' y' g' hsel
            rw [← he] at hsel
            simp only at hsel
            exact Option.noConfusion hsel

/-- Witness for C8: selecting the occupied tile (0, 0) of `exStNone`
yields a selection with a nonzero gid. -/
theorem selection_gid_nonzero_app : (5 : Nat) ≠ 0 :=
  selection_gid_nonzero exStNone (.mouseup 0 0)
    { exStNone with selection := some (0, 0, 5) }
    (fun x y g hsel => by simp [exStNone, exStSel] at hsel) rfl 0 0 5 rfl

/-- The click handler never touches `self.running` or
`self.exit_status`. -/
theorem clickAt_run_fields (st : AppState) (x y : Nat) (st' : AppState)
    (h : clickAt st x y = some st') :
    st'.running = st.running ∧ st'.exitStatus = st.exitStatus := by
  rcases hs : dlookup st.layers "Sprite Layer" with _ | sprite
  · rw [clickAt, hs] at h
    exact Option.noConfusion h
  rcases hw : dlookup st.layers "World Layer" with _ | world
  · simp only [clickAt, hs, hw] at h
    exact Option.noConfusion h
  rcases ht : getTerrain st (getCell world y x) with _ | t
  · simp only [clickAt, hs, hw, ht] at h
    exact Option.noConfusion h
  rcases hv : st.selection with _ | s
  · simp only [clickAt, hs, hw, ht, hv] at h
    by_cases h0 : getCell sprite y x ≠ 0
    · rw [if_pos h0] at h
      rw [← Option.some.inj h]
      exact ⟨rfl, rfl⟩
    · rw [if_neg h0] at h
      rw [← Option.some.inj h]
      exact ⟨rfl, rfl⟩
  · obtain ⟨sx, sy, g0⟩ := s
    simp only [clickAt, hs, hw, ht, hv] at h
    by_cases h0 : getCell sprite y x ≠ 0
    · rw [if_pos h0] at h
      rw [← Option.some.inj h]
      exact ⟨rfl, rfl⟩
    · rw [if_neg h0] at h
      by_cases hw1 : t = "water"
      · rw [if_pos hw1] at h
        rw [← Option.some.inj h]
        exact ⟨rfl, rfl⟩
      · rw [if_neg hw1] at h
        by_cases hw2 : t = "mountains"
        · rw [if_pos hw2] at h
          rw [← Option.some.inj h]
          exact ⟨rfl, rfl⟩
        · rw [if_neg hw2] at h
          rw [← Option.some.inj h]
          exact ⟨rfl, rfl⟩

/-- Once the loop has been stopped with exit status 0, no later event of
the batch restarts it or changes the status. -/
theorem processEvent_keeps_stopped (st : AppState) (e : Event)
    (st' : AppState) (hr : st.running = false) (hx : st.exitStatus = 0)
    (h : processEvent st e = some st') :
    st'.running = false ∧ st'.exitStatus = 0 := by
  cases e with
  | quit =>
    rw [← Option.some.inj h]
    exact ⟨rfl, rfl⟩
  | keydown k =>
    rw [processEvent] at h
    by_cases hk : k = K_ESCAPE
    · rw [if_pos hk] at h
      rw [← Option.some.inj h]
      exact ⟨rfl, rfl⟩
    · rw [if_neg hk] at h
      rw [← Option.some.inj h]
      exact ⟨hr, hx⟩
  | videoresize =>
    rw [← Option.some.inj h]
    exact ⟨hr, hx⟩
  | other =>
    rw [← Option.some.inj h]
    exact ⟨hr, hx⟩
  | mouseup x y =>
    rw [processEvent] at h
    have hf := clickAt_run_fields st x y st' h
    rw [hf.1, hf.2]
    exact ⟨hr, hx⟩

/-- `processEvent_keeps_stopped` extended over the rest of a batch. -/
theorem processEvents_keeps_stopped :
    ∀ (evs : List Event) (st st' : AppState), st.running = false →
      st.exitStatus = 0 → processEvents st evs = some st' →
      st'.running = false ∧ st'.exitStatus = 0
  | [], st, st', hr, hx, h => by
    rw [← Option.some.inj h]
    exact ⟨hr, hx⟩
  | e :: rest, st, st', hr, hx, h => by
    rw [processEvents] at h
    rcases he : processEvent st e with _ | s1
    · rw [he] at h
      exact Option.noConfusion h
    · rw [he] at h
      have h1 := processEvent_keeps_stopped st e s1 hr hx he
      exact processEvents_keeps_stopped rest s1 st' h1.1 h1.2 h

/-- Processing a batch splits over append. -/
theorem processEvents_append :
    ∀ (l1 l2 : List Event) (st : AppState),
      processEvents st (l1 ++ l2) =
        match processEvents st l1 with
        | none => none
        | some s => processEvents s l2
  | [], l2, st => rfl
  | e :: rest, l2, st => by
    rw [List.cons_append, processEvents, processEvents]
    rcases he : processEvent st e with _ | s1
    · rfl
    · exact processEvents_append rest l2 s1

/-- A QUIT or ESC KEYDOWN event sets `self.exit_status = 0` and
`self.running = False`. -/
theorem processEvent_quit (st : AppState) (e : Event)
    (he : isQuitEvent e = true) :
    processEvent st e = some { st with exitStatus := 0, running := false } := by
  cases e with
  | quit => rfl
  | keydown k =>
    have hk : k = K_ESCAPE := by
      simpa [isQuitEvent] using he
    rw [processEvent, if_pos hk]
  | videoresize => simp [isQuitEvent] at he
  | mouseup x y => simp [isQuitEvent] at he
  | other => simp [isQuitEvent] at he

/-- C5: if a batch that the main loop processes contains a QUIT event or
a KEYDOWN event for the ESC key (and the batch raises no error), the
loop stops at the end of that batch and `run()` returns exit status 0 —
whatever further batches follow. -/
theorem quit_event_returns_zero (st : AppState) (pre post : List Event)
    (e : Event) (rest : List (List Event)) (st' : AppState)
    (he : isQuitEvent e = true)
    (h : processEvents (runStart st) (pre ++ e :: post) = some st') :
    run st ((pre ++ e :: post) :: rest) = some 0 := by
  have h0 := h
  rw [processEvents_append] at h0
  rcases h1 : processEvents (runStart st) pre with _ | s1
  · rw [h1] at h0
    exact Option.noConfusion h0
  rw [h1] at h0
  simp only at h0
  rw [processEvents, processEvent_quit s1 e he] at h0
  have h2 := processEvents_keeps_stopped post _ st' rfl rfl h0
  rw [run, runLoop, h]
  simp only [h2.1, if_neg Bool.false_ne_true, h2.2]

/-- Witness for C5: a single batch holding only a QUIT event makes
`run` return 0. -/
theorem quit_event_returns_zero_app : run exStNone [[Event.quit]] = some 0 :=
  quit_event_returns_zero exStNone [] [] .quit []
    { runStart exStNone with exitStatus := 0, running := false } rfl rfl

/-- Any binding of the spawn-index fold came from the accumulator or
from a processed tile whose properties carry "spawn" with that key. -/
theorem spawn_fold_sound :
    ∀ (tp : List (Nat × Props)) (acc : List (String × Nat)) (k : String)
      (g : Nat), dlookup (tp.foldl spawnStep acc) k = some g →
      dlookup acc k = some g ∨
        ∃ props, (g, props) ∈ tp ∧ dlookup props "spawn" = some k
  | [], _, _, _, h => Or.inl h
  | p :: rest, acc, k, g, h => by
    obtain ⟨gid, props⟩ := p
    rw [List.foldl_cons] at h
    rcases spawn_fold_sound rest _ k g h with h1 | ⟨props1, hmem, hsp⟩
    · rcases hs : dlookup props "spawn" with _ | s
      · simp only [spawnStep, hs] at h1
        exact Or.inl h1
      · simp only [spawnStep, hs] at h1
        by_cases hk : s = k
        · subst hk
          rw [dlookup_dinsert_eq] at h1
          have hg : gid = g := Option.some.inj h1
          subst hg
          exact Or.inr ⟨props, List.mem_cons_self _ _, hs⟩
        · rw [dlookup_dinsert_ne _ s k _ hk] at h1
          exact Or.inl h1
    · exact Or.inr ⟨props1, List.mem_cons_of_mem _ hmem, hsp⟩

/-- `dinsert` never removes a key. -/
theorem dlookup_dinsert_isSome {α β : Type} [DecidableEq α]
    (l : List (α × β)) (k k' : α) (v : β)
    (h : (dlookup l k').isSome = true) :
    (dlookup (dinsert l k v) k').isSome = true := by
  by_cases hk : k = k'
  · subst hk
    rw [dlookup_dinsert_eq]
    rfl
  · rw [dlookup_dinsert_ne _ k k' v hk]
    exact h

/-- Every processed tile with a "spawn" property leaves its spawn value
present as a key of the fold result. -/
theorem spawn_fold_complete :
    ∀ (tp : List (Nat × Props)) (acc : List (String × Nat)) (k : String),
      ((dlookup acc k).isSome = true ∨
        ∃ g props, (g, props) ∈ tp ∧ dlookup props "spawn" = some k) →
      (dlookup (tp.foldl spawnStep acc) k).isSome = true
  | [], acc, k, h => by
    rcases h with h | ⟨g, props, hmem, _⟩
    · exact h
    · exact absurd hmem (List.not_mem_nil _)
  | p :: rest, acc, k, h => by
    obtain ⟨gid, props⟩ := p
    rw [List.foldl_cons]
    apply spawn_fold_complete rest _ k
    rcases h with h | ⟨g, props1, hmem, hsp⟩
    · left
      rcases hs : dlookup props "spawn" with _ | s
      · simpa only [spawnStep, hs] using h
      · simp only [spawnStep, hs]
        exact dlookup_dinsert_isSome acc s k gid h
    · rcases List.mem_cons.mp hmem with heq | hmem1
      · left
        have hp : props1 = props := congrArg Prod.snd heq
        rw [hp] at hsp
        simp only [spawnStep, hsp]
        rw [dlookup_dinsert_eq]
        rfl
      · exact Or.inr ⟨g, props1, hmem1, hsp⟩

/-- C7: the spawn index binds exactly the "spawn" property values of the
tiles that have one — every binding k to g of the result comes from a
tile gid g whose properties map "spawn" to k (so tiles without a "spawn"
property contribute nothing), and every tile with a "spawn" property
leaves its value present as a key. -/
theorem spawn_index_exact (tp : List (Nat × Props)) (k : String) :
    (∀ g, dlookup (build_spawn_index tp) k = some g →
      ∃ props, (g, props) ∈ tp ∧ dlookup props "spawn" = some k) ∧
    ((∃ g props, (g, props) ∈ tp ∧ dlookup props "spawn" = some k) →
      (dlookup (build_spawn_index tp) k).isSome = true) := by
  constructor
  · intro g h
    rcases spawn_fold_sound tp [] k g h with h1 | h1
    · rw [dlookup] at h1
      exact Option.noConfusion h1
    · exact h1
  · intro h
    exact spawn_fold_complete tp [] k (Or.inr h)

/-- Witness for C7: the one-entry table `exSpawnTP` yields the binding
"blue" to gid 5, which the theorem traces back to the defining tile. -/
theorem spawn_index_exact_app :
    ∃ props, ((5 : Nat), props) ∈ exSpawnTP ∧
      dlookup props "spawn" = some "blue" :=
  (spawn_index_exact exSpawnTP "blue").1 5 rfl

/-- C6 fails on the code: building the character index over `exCharTP` —
one character "red" "dude" with the two modes "idle" (gid 1) and "walk"
(gid 2) — succeeds but keeps only the mode of the last tile processed.
The guard `if team not in characters[team]` (src/honk.py line 100)
compares the wrong key, so the per-character mode dict is reset to `{}`
on every iteration whose team differs from the character name, and the
"idle" entry the claim promises is absent. -/
theorem character_index_drops_earlier_mode :
    build_character_index exCharTP =
      some [("red", [("dude", [("walk", 2)])])] ∧
    (build_character_index exCharTP).map
      (fun c => charLookup c "red" "dude" "idle") = some none ∧
    (build_character_index exCharTP).map
      (fun c => charLookup c "red" "dude" "walk") = some (some 2) :=
  ⟨rfl, rfl, rfl⟩

end Honk
